import Mathlib

/-!
# Blog Web Application and Book Notes: request handlers

A shallow embedding of the two Express applications of the repository:

* `Blog Web Application/index.js`: the in-memory post store (`posts`, `nextId`) and its
  route handlers, as functions from a store, a request and the current time to a new
  store and a response;
* `Book Notes/index.js`: the helpers `coverUrlFromISBN` and `sortClause`, the list and
  create handlers and the Open Library search handler, with the database and the
  upstream service as explicit inputs.

JavaScript strings are `String`s. The counter `nextId` is a natural number (the increment
of a JavaScript number is exact below `2 ^ 53`). A handler that throws is answered by the
framework's error handler, modelled as the response `fault`.
-/

/-! ## JavaScript helpers shared by both applications -/

namespace JS

/-- Code points that `String.prototype.trim` strips: the ECMAScript `WhiteSpace` and
`LineTerminator` productions. -/
def isWhiteSpace (c : Char) : Bool :=
  let n := c.toNat
  n == 0x09 || n == 0x0A || n == 0x0B || n == 0x0C || n == 0x0D || n == 0x20 ||
  n == 0xA0 || n == 0x1680 || (0x2000 ≤ n && n ≤ 0x200A) || n == 0x2028 ||
  n == 0x2029 || n == 0x202F || n == 0x205F || n == 0x3000 || n == 0xFEFF

/-- Strip leading and trailing white space from a list of characters. -/
def trimChars (l : List Char) : List Char :=
  ((l.dropWhile isWhiteSpace).reverse.dropWhile isWhiteSpace).reverse

/-- The method `String.prototype.trim`. -/
def trim (s : String) : String := ⟨trimChars s.data⟩

/-- A value the body and query parsers (`extended: true`) hand to a handler for one
field: a text, an array (`a[]=x`, or a repeated key) or a nested object (`a[k]=x`).
A field that was not sent is `none` (`undefined`) at the use site. -/
inductive Value where
  | str (s : String)
  | arr (items : List Value)
  | obj (fields : List (String × Value))

/-- JavaScript truthiness of a field: `undefined` and the empty string are falsy,
every other text, every array and every object is truthy. -/
def truthy : Option Value → Bool
  | none => false
  | some (.str s) => s != ""
  | some (.arr _) => true
  | some (.obj _) => true

/-- The call `v.trim()`: the trimmed text for a string, and a `TypeError` (`none`) for an
array or an object, which have no callable `trim`. -/
def callTrim : Option Value → Option String
  | some (.str s) => some (trim s)
  | _ => none

/-- The number written by a list of decimal digits. -/
def decimalValue (l : List Char) : Nat :=
  l.foldl (fun acc c => acc * 10 + (c.toNat - 48)) 0

/-- Whether a text has no white space at either end. -/
def isTrimmed (s : String) : Bool :=
  (s.data.head?.all fun c => !isWhiteSpace c) && (s.data.getLast?.all fun c => !isWhiteSpace c)

end JS

/-! ## Blog Web Application -/

namespace Blog

/-- A blog post as built in `app.post("/posts")`; dates are millisecond time stamps. -/
structure Post where
  id : String
  title : String
  content : String
  createdAt : Nat
  updatedAt : Nat
  deriving DecidableEq, Repr

/-- The module state: `let posts = []; let nextId = 1;`. -/
structure Store where
  posts : List Post
  nextId : Nat
  deriving DecidableEq, Repr

/-- The state at start-up. -/
def Store.init : Store := { posts := [], nextId := 1 }

/-- The fields `title` and `content` read from `req.body`. -/
structure Body where
  title : Option JS.Value
  content : Option JS.Value

/-- The templates rendered by the handlers, with the locals passed to them. -/
inductive View where
  | index (pageTitle : String) (posts : List Post) (error : Option String)
  | notfound (pageTitle : String) (id : Option String)
  | showPost (pageTitle : String) (post : Post)
  | edit (pageTitle : String) (post : Post) (error : Option String)
  deriving DecidableEq, Repr

/-- What a handler sends: a rendered view with its status, a redirect, or, when the
handler throws, the framework's error response. -/
inductive Response where
  | render (status : Nat) (view : View)
  | redirect (location : String)
  | fault
  deriving DecidableEq, Repr

/-- `const find = (id) => posts.find((p) => p.id === id);` -/
def find (s : Store) (id : String) : Option Post :=
  s.posts.find? (fun p => p.id == id)

/-- Insert `p` in a list sorted by `updatedAt` descending, before the first element that
is not newer than `p`. -/
def insertByUpdatedAt (p : Post) : List Post → List Post
  | [] => [p]
  | q :: qs => if q.updatedAt ≤ p.updatedAt then p :: q :: qs else q :: insertByUpdatedAt p qs

/-- `[...posts].sort((a, b) => b.updatedAt - a.updatedAt)`: the stable sort by
`updatedAt` descending. -/
def sorted (posts : List Post) : List Post :=
  posts.foldr insertByUpdatedAt []

/-- The message of both validation failures. -/
def requiredError : String := "Title and content are required."

/-- `app.get("/")`. -/
def getHome (s : Store) : Store × Response :=
  (s, .render 200 (.index "My Blog" (sorted s.posts) none))

/-- `app.post("/posts")`. The object literal evaluates `String(nextId++)` before
`title.trim()` and `content.trim()`, so a throwing `trim` leaves the counter advanced and
no post pushed. -/
def postPosts (s : Store) (body : Body) (now : Nat) : Store × Response :=
  if !JS.truthy body.title || !JS.truthy body.content then
    (s, .render 400 (.index "My Blog" (sorted s.posts) (some requiredError)))
  else
    let id := toString s.nextId
    let s1 : Store := { s with nextId := s.nextId + 1 }
    match JS.callTrim body.title with
    | none => (s1, .fault)
    | some title =>
      match JS.callTrim body.content with
      | none => (s1, .fault)
      | some content =>
        let post : Post :=
          { id := id, title := title, content := content, createdAt := now, updatedAt := now }
        ({ s1 with posts := s1.posts ++ [post] }, .redirect ("/posts/" ++ post.id))

/-- `app.get("/posts/:id")`. -/
def getPost (s : Store) (id : String) : Store × Response :=
  match find s id with
  | none => (s, .render 404 (.notfound "Not Found" (some id)))
  | some post => (s, .render 200 (.showPost post.title post))

/-- `app.get("/posts/:id/edit")`. -/
def getEdit (s : Store) (id : String) : Store × Response :=
  match find s id with
  | none => (s, .render 404 (.notfound "Not Found" (some id)))
  | some post => (s, .render 200 (.edit ("Edit: " ++ post.title) post none))

/-- Apply `f` to the first element satisfying `p`: an in-place mutation of the object
returned by `Array.prototype.find`. -/
def modifyFirst (p : Post → Bool) (f : Post → Post) : List Post → List Post
  | [] => []
  | x :: xs => if p x then f x :: xs else x :: modifyFirst p f xs

/-- `app.post("/posts/:id/edit")`. The three assignments run in order, so a throwing
`content.trim()` leaves the title already assigned. -/
def postEdit (s : Store) (id : String) (body : Body) (now : Nat) : Store × Response :=
  match find s id with
  | none => (s, .render 404 (.notfound "Not Found" (some id)))
  | some post =>
    if !JS.truthy body.title || !JS.truthy body.content then
      (s, .render 400 (.edit ("Edit: " ++ post.title) post (some requiredError)))
    else
      match JS.callTrim body.title with
      | none => (s, .fault)
      | some title =>
        let isTarget : Post → Bool := fun p => p.id == id
        let posts1 := modifyFirst isTarget (fun p => { p with title := title }) s.posts
        match JS.callTrim body.content with
        | none => ({ s with posts := posts1 }, .fault)
        | some content =>
          let posts2 := modifyFirst isTarget
            (fun p => { p with title := title, content := content, updatedAt := now }) s.posts
          ({ s with posts := posts2 }, .redirect ("/posts/" ++ post.id))

/-- `app.post("/posts/:id/delete")`. -/
def postDelete (s : Store) (id : String) : Store × Response :=
  ({ s with posts := s.posts.filter (fun p => p.id != id) }, .redirect "/")

/-- The 404 fallback for every other path. -/
def notFound (s : Store) : Store × Response :=
  (s, .render 404 (.notfound "Not Found" none))

/-- The requests the application routes. -/
inductive Request where
  | home
  | create (body : Body)
  | showPost (id : String)
  | editForm (id : String)
  | saveEdit (id : String) (body : Body)
  | delete (id : String)
  | other

/-- Dispatch of one request arriving at time `now`. -/
def handle (s : Store) (now : Nat) : Request → Store × Response
  | .home => getHome s
  | .create body => postPosts s body now
  | .showPost id => getPost s id
  | .editForm id => getEdit s id
  | .saveEdit id body => postEdit s id body now
  | .delete id => postDelete s id
  | .other => notFound s

/-- The store after a sequence of timed requests. -/
def run (s : Store) : List (Nat × Request) → Store
  | [] => s
  | (now, r) :: rest => run (handle s now r).1 rest

/-- States the running application can be in: those reached from the start-up state by
some sequence of requests. -/
def Reachable (s : Store) : Prop := ∃ reqs, run Store.init reqs = s

/-- The invariant of the store: distinct ids, every id the decimal text of a positive
number below the counter, and trimmed titles and contents. -/
def Inv (s : Store) : Prop :=
  (s.posts.map (·.id)).Nodup ∧
  (∀ p ∈ s.posts, ∃ n, 1 ≤ n ∧ n < s.nextId ∧ p.id = toString n) ∧
  1 ≤ s.nextId ∧
  (∀ p ∈ s.posts, JS.isTrimmed p.title = true ∧ JS.isTrimmed p.content = true)

/-- The ids of the posts a request appended: those stored beyond the old length. -/
def appendedIds (s s' : Store) : List String :=
  (s'.posts.drop s.posts.length).map (·.id)

/-- Every id handed out along a sequence of requests, in order of assignment. -/
def assignedIds (s : Store) : List (Nat × Request) → List String
  | [] => []
  | (now, r) :: rest =>
    appendedIds s (handle s now r).1 ++ assignedIds (handle s now r).1 rest

end Blog

/-! ## Book Notes -/

namespace BookNotes

/-- The bytes of the UTF-8 encoding of a character. -/
def utf8Bytes (c : Char) : List Nat :=
  let n := c.toNat
  if n < 0x80 then [n]
  else if n < 0x800 then [0xC0 + n / 0x40, 0x80 + n % 0x40]
  else if n < 0x10000 then [0xE0 + n / 0x1000, 0x80 + n / 0x40 % 0x40, 0x80 + n % 0x40]
  else [0xF0 + n / 0x40000, 0x80 + n / 0x1000 % 0x40, 0x80 + n / 0x40 % 0x40, 0x80 + n % 0x40]

/-- An upper-case hexadecimal digit. -/
def hexDigit (n : Nat) : Char :=
  if n < 10 then Char.ofNat (48 + n) else Char.ofNat (55 + n)

/-- The escape `%XX` of one byte. -/
def percentByte (b : Nat) : List Char :=
  [Char.ofNat 37, hexDigit (b / 16), hexDigit (b % 16)]

/-- Characters `encodeURIComponent` leaves alone: ASCII letters, digits and
`- _ . ! ~ * ( )` and the apostrophe. -/
def isUnreserved (c : Char) : Bool :=
  let n := c.toNat
  (65 ≤ n && n ≤ 90) || (97 ≤ n && n ≤ 122) || (48 ≤ n && n ≤ 57) ||
  n == 45 || n == 95 || n == 46 || n == 33 || n == 126 || n == 42 || n == 39 ||
  n == 40 || n == 41

/-- The global function `encodeURIComponent` on well-formed text. -/
def encodeURIComponent (s : String) : String :=
  ⟨s.data.flatMap (fun c => if isUnreserved c then [c] else (utf8Bytes c).flatMap percentByte)⟩

/-- `coverUrlFromISBN(isbn, size)`: the cover URL for a truthy `isbn`, `null` otherwise.
Both call sites pass the size `"M"`, which is also the default of the parameter. -/
def coverUrlFromISBN (isbn : Option String) (size : String) : Option String :=
  match isbn with
  | some i =>
    if i != "" then
      some ("https://covers.openlibrary.org/b/isbn/" ++ encodeURIComponent i ++ "-" ++ size ++ ".jpg")
    else none
  | none => none

/-- The clause returned for `"title"`. -/
def titleClause : String := "ORDER BY title ASC, created_at DESC"

/-- The clause returned for `"rating"`. -/
def ratingClause : String := "ORDER BY rating DESC NULLS LAST, created_at DESC"

/-- The clause returned for `"recency"` and by the `default` branch. -/
def recencyClause : String := "ORDER BY created_at DESC"

/-- `sortClause(sort)`: a `switch` with strict equality, so only the texts `"title"` and
`"rating"` leave the default branch. -/
def sortClause (sort : Option JS.Value) : String :=
  match sort with
  | some (.str s) =>
    if s = "title" then titleClause
    else if s = "rating" then ratingClause
    else recencyClause
  | _ => recencyClause

/-- `req.query.sort || "recency"` in `app.get("/")`. -/
def homeSort (query : Option JS.Value) : Option JS.Value :=
  if JS.truthy query then query else some (.str "recency")

/-- The statement `app.get("/")` sends to the database. -/
def homeQuery (query : Option JS.Value) : String :=
  "SELECT id, title, author, isbn, rating, notes, date_read, created_at, updated_at\n         FROM books "
    ++ sortClause (homeSort query) ++ ";"

/-- The form fields of a book read from `req.body`. -/
structure BookBody where
  title : Option JS.Value
  author : Option JS.Value
  isbn : Option JS.Value
  rating : Option JS.Value
  notes : Option JS.Value
  date_read : Option JS.Value

/-- A statement parameter: `null`, a text, a field passed through as received, or
`Number(v)` of a field (the numeric coercion is left uninterpreted). -/
inductive Param where
  | null
  | text (s : String)
  | field (v : JS.Value)
  | number (v : JS.Value)

/-- The expression `v || null`. -/
def orNull (v : Option JS.Value) : Param :=
  match v with
  | some x => if JS.truthy (some x) then .field x else .null
  | none => .null

/-- The expression `rating ? Number(rating) : null`. -/
def ratingParam (v : Option JS.Value) : Param :=
  match v with
  | some x => if JS.truthy (some x) then .number x else .null
  | none => .null

/-- The text of the `INSERT` statement of `app.post("/books")`. -/
def insertSql : String :=
  "INSERT INTO books (title, author, isbn, rating, notes, date_read)\n       VALUES ($1, $2, $3, $4, $5, $6);"

/-- The parameter array of the `INSERT`; `none` when `title.trim()` throws. -/
def insertParams (body : BookBody) : Option (List Param) :=
  match JS.callTrim body.title with
  | none => none
  | some t =>
    some [.text t, orNull body.author, orNull body.isbn, ratingParam body.rating,
      orNull body.notes, orNull body.date_read]

/-- One document of the upstream search response, with the fields the handler reads. -/
structure Doc where
  title : Option String
  author_name : Option (List String)
  first_publish_year : Option Int
  isbn : Option (List String)
  deriving DecidableEq, Repr

/-- One element of `results`; `none` is `null` (for `title`, an omitted property). -/
structure SearchResult where
  title : Option String
  author : Option String
  first_publish_year : Option Int
  isbn : Option String
  cover : Option String
  deriving DecidableEq, Repr

/-- The JSON bodies sent by `/api/search`. -/
inductive Payload where
  | error (message : String)
  | search (query : String) (results : List SearchResult)
  deriving DecidableEq, Repr

/-- The templates rendered by the modelled handlers, over the row type of the database. -/
inductive View (Row : Type) where
  | index (books : List Row) (sort : Option JS.Value) (error : Option String)
  | new (error : Option String) (values : BookBody)

/-- What a handler sends. -/
inductive Response (Row : Type) where
  | render (status : Nat) (view : View Row)
  | redirect (location : String)
  | json (status : Nat) (payload : Payload)
  | fault

/-- `app.get("/")`, with `db` the outcome of the query (`none` when it rejects). -/
def getHome {Row : Type} (query : Option JS.Value) (db : String → Option (List Row)) :
    Response Row :=
  let sort := homeSort query
  match db (homeQuery query) with
  | some rows => .render 200 (.index rows sort none)
  | none => .render 500 (.index [] sort (some "Failed to load books."))

/-- `app.post("/books")`, with `db` telling whether the `INSERT` succeeds. -/
def postBooks {Row : Type} (body : BookBody) (db : String → List Param → Bool) :
    Response Row :=
  if !JS.truthy body.title then
    .render 400 (.new (some "Title is required.") body)
  else
    match insertParams body with
    | none => .render 500 (.new (some "Failed to save book.") body)
    | some params =>
      if db insertSql params then .redirect "/"
      else .render 500 (.new (some "Failed to save book.") body)

/-- The expression `(xs && xs[0]) || null` on an optional array of texts. -/
def firstOrNull (xs : Option (List String)) : Option String :=
  match xs with
  | some (x :: _) => if x != "" then some x else none
  | _ => none

/-- The expression `doc.first_publish_year || null`. -/
def yearOrNull (y : Option Int) : Option Int :=
  match y with
  | some n => if n != 0 then some n else none
  | none => none

/-- The arrow function mapped over the documents in `/api/search`. -/
def toResult (doc : Doc) : SearchResult :=
  { title := doc.title
    author := firstOrNull doc.author_name
    first_publish_year := yearOrNull doc.first_publish_year
    isbn := firstOrNull doc.isbn
    cover :=
      match doc.isbn with
      | some (i :: _) => if i != "" then coverUrlFromISBN (some i) "M" else none
      | _ => none }

/-- `app.get("/api/search")`. The upstream call receives the title and the limit 5 and
returns `none` on failure, otherwise the `docs` property of the response body (`none`
when the property is missing). -/
def apiSearch {Row : Type} (query : Option JS.Value)
    (upstream : String → Nat → Option (Option (List Doc))) : Response Row :=
  let trimmed : Option String :=
    if JS.truthy query then JS.callTrim query else some (JS.trim "")
  match trimmed with
  | none => .fault
  | some title =>
    if title = "" then .json 400 (.error "Provide ?title=")
    else
      match upstream title 5 with
      | none => .json 502 (.error "Failed to fetch from Open Library")
      | some docs => .json 200 (.search title (((docs.getD []).take 5).map toResult))

end BookNotes

/-! ## Properties of the JavaScript helpers -/

namespace JS

theorem digitChar_value (k : Nat) (hk : k < 10) : (Nat.digitChar k).toNat - 48 = k := by
  interval_cases k <;> rfl

theorem toDigitsCore_append (b : Nat) (fuel : Nat) :
    ∀ (n : Nat) (ds : List Char),
      Nat.toDigitsCore b fuel n ds = Nat.toDigitsCore b fuel n [] ++ ds := by
  induction fuel with
  | zero => intro n ds; simp [Nat.toDigitsCore]
  | succ fuel ih =>
    intro n ds
    simp only [Nat.toDigitsCore]
    split
    · simp
    · rw [ih (n / b) (Nat.digitChar (n % b) :: ds), ih (n / b) [Nat.digitChar (n % b)]]
      simp

theorem decimalValue_toDigitsCore (fuel : Nat) :
    ∀ n : Nat, n < fuel → decimalValue (Nat.toDigitsCore 10 fuel n []) = n := by
  induction fuel with
  | zero => intro n hn; omega
  | succ fuel ih =>
    intro n hn
    simp only [Nat.toDigitsCore]
    split
    · rename_i h
      have hlt : n < 10 := by omega
      simp [decimalValue, Nat.mod_eq_of_lt hlt, digitChar_value n hlt]
    · rename_i h
      rw [toDigitsCore_append]
      have hq : n / 10 < fuel := by omega
      have := ih (n / 10) hq
      unfold decimalValue at this ⊢
      rw [List.foldl_append, this]
      simp only [List.foldl_cons, List.foldl_nil]
      rw [digitChar_value _ (Nat.mod_lt _ (by decide))]
      omega

theorem decimalValue_toString (n : Nat) : decimalValue (toString n).data = n := by
  show decimalValue (Nat.repr n).data = n
  unfold Nat.repr Nat.toDigits
  exact decimalValue_toDigitsCore (n + 1) n (Nat.lt_succ_self n)

theorem toString_nat_inj {m n : Nat} (h : toString m = toString n) : m = n := by
  have := congrArg (fun s : String => decimalValue s.data) h
  simpa [decimalValue_toString] using this


theorem head?_dropWhile_isWhiteSpace (l : List Char) (c : Char)
    (h : (l.dropWhile isWhiteSpace).head? = some c) : isWhiteSpace c = false := by
  have := List.head?_dropWhile_not isWhiteSpace l
  rw [h] at this
  simpa using this

theorem trimChars_getLast? (l : List Char) (c : Char)
    (h : (trimChars l).getLast? = some c) : isWhiteSpace c = false := by
  unfold trimChars at h
  rw [List.getLast?_reverse] at h
  exact head?_dropWhile_isWhiteSpace _ c h

theorem trimChars_head? (l : List Char) (c : Char)
    (h : (trimChars l).head? = some c) : isWhiteSpace c = false := by
  unfold trimChars at h
  rw [List.head?_reverse] at h
  obtain ⟨t, ht⟩ := List.dropWhile_suffix (l := (l.dropWhile isWhiteSpace).reverse) isWhiteSpace
  have h2 : ((l.dropWhile isWhiteSpace).reverse).getLast? = some c := by
    rw [← ht, List.getLast?_append, h]
    rfl
  rw [List.getLast?_reverse] at h2
  exact head?_dropWhile_isWhiteSpace l c h2

theorem isTrimmed_trim (s : String) : isTrimmed (trim s) = true := by
  unfold isTrimmed trim
  have h1 := trimChars_head? s.data
  have h2 := trimChars_getLast? s.data
  cases hh : (trimChars s.data).head? with
  | none =>
    cases hl : (trimChars s.data).getLast? with
    | none => simp [Option.all]
    | some b => simp [Option.all, h2 b hl]
  | some a =>
    cases hl : (trimChars s.data).getLast? with
    | none => simp [Option.all, h1 a hh]
    | some b => simp [Option.all, h1 a hh, h2 b hl]

end JS

namespace Blog

theorem postPosts_cases (s : Store) (body : Body) (now : Nat) :
    (postPosts s body now).1 = s ∨
    (postPosts s body now).1 = { s with nextId := s.nextId + 1 } ∨
    ∃ t c, body.title = some (.str t) ∧ body.content = some (.str c) ∧ t ≠ "" ∧ c ≠ "" ∧
      postPosts s body now =
        ({ posts := s.posts ++ [⟨toString s.nextId, JS.trim t, JS.trim c, now, now⟩],
           nextId := s.nextId + 1 },
         .redirect ("/posts/" ++ toString s.nextId)) := by
  rcases body with ⟨_ | (t | a | o), _ | (c | a | o)⟩ <;>
    simp [postPosts, JS.truthy, JS.callTrim] <;>
    (try split) <;> simp_all

theorem postEdit_cases (s : Store) (id : String) (body : Body) (now : Nat) :
    (postEdit s id body now).1 = s ∨
    (∃ t, (postEdit s id body now).1 =
      Store.mk (modifyFirst (fun p => p.id == id) (fun p => { p with title := JS.trim t })
        s.posts) s.nextId) ∨
    (∃ t c, (postEdit s id body now).1 =
      Store.mk (modifyFirst (fun p => p.id == id)
        (fun p => { p with title := JS.trim t, content := JS.trim c, updatedAt := now })
        s.posts) s.nextId) := by
  unfold postEdit
  cases hf : find s id with
  | none => simp
  | some post =>
    rcases body with ⟨_ | (t | a | o), _ | (c | a | o)⟩ <;>
      simp only [JS.truthy, JS.callTrim] <;>
      (try split) <;>
      first
        | exact Or.inl rfl
        | exact Or.inr (Or.inl ⟨_, rfl⟩)
        | exact Or.inr (Or.inr ⟨_, _, rfl⟩)

theorem map_id_modifyFirst (p : Post → Bool) (f : Post → Post) (hf : ∀ x, (f x).id = x.id)
    (l : List Post) : (modifyFirst p f l).map (·.id) = l.map (·.id) := by
  induction l with
  | nil => rfl
  | cons x xs ih =>
    simp only [modifyFirst]
    split
    · simp [hf]
    · simp [ih]

theorem mem_modifyFirst (p : Post → Bool) (f : Post → Post) (l : List Post) (q : Post)
    (h : q ∈ modifyFirst p f l) : q ∈ l ∨ ∃ x ∈ l, q = f x := by
  induction l with
  | nil => simp [modifyFirst] at h
  | cons x xs ih =>
    simp only [modifyFirst] at h
    split at h
    · rcases List.mem_cons.mp h with h | h
      · exact Or.inr ⟨x, List.mem_cons_self _ _, h⟩
      · exact Or.inl (List.mem_cons_of_mem _ h)
    · rcases List.mem_cons.mp h with h | h
      · exact Or.inl (h ▸ List.mem_cons_self _ _)
      · rcases ih h with h | ⟨y, hy, rfl⟩
        · exact Or.inl (List.mem_cons_of_mem _ h)
        · exact Or.inr ⟨y, List.mem_cons_of_mem _ hy, rfl⟩

theorem inv_modifyFirst (s : Store) (p : Post → Bool) (f : Post → Post)
    (hid : ∀ x, (f x).id = x.id)
    (htr : ∀ x, JS.isTrimmed x.title = true ∧ JS.isTrimmed x.content = true →
      JS.isTrimmed (f x).title = true ∧ JS.isTrimmed (f x).content = true)
    (h : Inv s) : Inv (Store.mk (modifyFirst p f s.posts) s.nextId) := by
  obtain ⟨h1, h2, h3, h4⟩ := h
  refine ⟨?_, ?_, h3, ?_⟩
  · simpa [map_id_modifyFirst p f hid] using h1
  · intro q hq
    rcases mem_modifyFirst p f s.posts q hq with hq | ⟨x, hx, rfl⟩
    · exact h2 q hq
    · rw [hid]; exact h2 x hx
  · intro q hq
    rcases mem_modifyFirst p f s.posts q hq with hq | ⟨x, hx, rfl⟩
    · exact h4 q hq
    · exact htr x (h4 x hx)

theorem inv_postPosts (s : Store) (body : Body) (now : Nat) (h : Inv s) :
    Inv (postPosts s body now).1 := by
  rcases postPosts_cases s body now with h0 | h0 | ⟨t, c, -, -, -, -, h0⟩
  · rw [h0]; exact h
  · rw [h0]
    obtain ⟨h1, h2, h3, h4⟩ := h
    refine ⟨h1, ?_, Nat.le_succ_of_le h3, h4⟩
    intro p hp
    obtain ⟨n, hn1, hn2, hn3⟩ := h2 p hp
    exact ⟨n, hn1, Nat.lt_succ_of_lt hn2, hn3⟩
  · rw [h0]
    obtain ⟨h1, h2, h3, h4⟩ := h
    refine ⟨?_, ?_, Nat.le_succ_of_le h3, ?_⟩
    · simp only [List.map_append, List.map_cons, List.map_nil]
      rw [List.nodup_append]
      refine ⟨h1, List.nodup_singleton _, ?_⟩
      intro a ha hb
      rw [List.mem_singleton] at hb
      obtain ⟨p, hp, rfl⟩ := List.mem_map.mp ha
      obtain ⟨n, -, hn2, hn3⟩ := h2 p hp
      have := JS.toString_nat_inj (hn3.symm.trans hb)
      omega
    · intro p hp
      rcases List.mem_append.mp hp with hp | hp
      · obtain ⟨n, hn1, hn2, hn3⟩ := h2 p hp
        exact ⟨n, hn1, Nat.lt_succ_of_lt hn2, hn3⟩
      · rw [List.mem_singleton] at hp
        subst hp
        exact ⟨s.nextId, h3, Nat.lt_succ_self _, rfl⟩
    · intro p hp
      rcases List.mem_append.mp hp with hp | hp
      · exact h4 p hp
      · rw [List.mem_singleton] at hp
        subst hp
        exact ⟨JS.isTrimmed_trim t, JS.isTrimmed_trim c⟩

theorem inv_postEdit (s : Store) (id : String) (body : Body) (now : Nat) (h : Inv s) :
    Inv (postEdit s id body now).1 := by
  rcases postEdit_cases s id body now with h0 | ⟨t, h0⟩ | ⟨t, c, h0⟩
  · rw [h0]; exact h
  · rw [h0]
    exact inv_modifyFirst s _ _ (fun _ => rfl) (fun x hx => ⟨JS.isTrimmed_trim t, hx.2⟩) h
  · rw [h0]
    exact inv_modifyFirst s _ _ (fun _ => rfl)
      (fun x _ => ⟨JS.isTrimmed_trim t, JS.isTrimmed_trim c⟩) h

theorem inv_postDelete (s : Store) (id : String) (h : Inv s) : Inv (postDelete s id).1 := by
  obtain ⟨h1, h2, h3, h4⟩ := h
  refine ⟨?_, ?_, h3, ?_⟩
  · exact h1.sublist ((List.filter_sublist _).map _)
  · intro p hp
    exact h2 p (List.mem_of_mem_filter hp)
  · intro p hp
    exact h4 p (List.mem_of_mem_filter hp)

theorem getPost_state (s : Store) (id : String) : (getPost s id).1 = s := by
  unfold getPost; split <;> rfl

theorem getEdit_state (s : Store) (id : String) : (getEdit s id).1 = s := by
  unfold getEdit; split <;> rfl

theorem inv_handle (s : Store) (now : Nat) (r : Request) (h : Inv s) :
    Inv (handle s now r).1 := by
  cases r with
  | home => exact h
  | create body => exact inv_postPosts s body now h
  | showPost id => simpa [handle, getPost_state] using h
  | editForm id => simpa [handle, getEdit_state] using h
  | saveEdit id body => exact inv_postEdit s id body now h
  | delete id => exact inv_postDelete s id h
  | other => exact h

theorem inv_run (reqs : List (Nat × Request)) :
    ∀ s, Inv s → Inv (run s reqs) := by
  induction reqs with
  | nil => intro s h; exact h
  | cons r rest ih =>
    intro s h
    obtain ⟨now, r⟩ := r
    exact ih _ (inv_handle s now r h)

theorem inv_init : Inv Store.init := by
  refine ⟨?_, ?_, ?_, ?_⟩ <;> simp [Store.init]

theorem inv_of_reachable (s : Store) (h : Reachable s) : Inv s := by
  obtain ⟨reqs, rfl⟩ := h
  exact inv_run reqs _ inv_init

theorem length_modifyFirst (p : Post → Bool) (f : Post → Post) (l : List Post) :
    (modifyFirst p f l).length = l.length := by
  induction l with
  | nil => rfl
  | cons x xs ih =>
    simp only [modifyFirst]
    split <;> simp [ih]

theorem modifyFirst_split (pr : Post → Bool) (f : Post → Post) (l : List Post)
    (h : ∃ p ∈ l, pr p = true) :
    ∃ pre p post, l = pre ++ p :: post ∧ pr p = true ∧ (∀ q ∈ pre, pr q = false) ∧
      l.find? pr = some p ∧ modifyFirst pr f l = pre ++ f p :: post := by
  induction l with
  | nil => simp at h
  | cons x xs ih =>
    by_cases hx : pr x = true
    · exact ⟨[], x, xs, rfl, hx, by simp, by simp [List.find?, hx], by simp [modifyFirst, hx]⟩
    · have h' : ∃ p ∈ xs, pr p = true := by
        obtain ⟨p, hp, hpp⟩ := h
        rcases List.mem_cons.mp hp with rfl | hp
        · exact absurd hpp hx
        · exact ⟨p, hp, hpp⟩
      obtain ⟨pre, p, post, h1, h2, h3, h4, h5⟩ := ih h'
      refine ⟨x :: pre, p, post, by simp [h1], h2, ?_, ?_, ?_⟩
      · intro q hq
        rcases List.mem_cons.mp hq with rfl | hq
        · simpa using hx
        · exact h3 q hq
      · simp [List.find?, hx, h4]
      · simp [modifyFirst, hx, h5]

theorem find_eq_none (s : Store) (id : String) (h : ∀ p ∈ s.posts, p.id ≠ id) :
    find s id = none := by
  unfold find
  rw [List.find?_eq_none]
  intro p hp
  simpa using h p hp

theorem handle_appended (s : Store) (now : Nat) (r : Request) :
    s.nextId ≤ (handle s now r).1.nextId ∧
    (appendedIds s (handle s now r).1 = [] ∨
      (appendedIds s (handle s now r).1 = [toString s.nextId] ∧
        (handle s now r).1.nextId = s.nextId + 1)) := by
  cases r with
  | home => simp [handle, getHome, appendedIds]
  | create body =>
    simp only [handle]
    rcases postPosts_cases s body now with h0 | h0 | ⟨t, c, -, -, -, -, h0⟩
    · rw [h0]; simp [appendedIds]
    · rw [h0]; simp [appendedIds]
    · rw [h0]; simp [appendedIds]
  | showPost id => simp [handle, getPost_state, appendedIds]
  | editForm id => simp [handle, getEdit_state, appendedIds]
  | saveEdit id body =>
    simp only [handle]
    rcases postEdit_cases s id body now with h0 | ⟨t, h0⟩ | ⟨t, c, h0⟩
    · rw [h0]; simp [appendedIds]
    · rw [h0]; simp [appendedIds, length_modifyFirst]
    · rw [h0]; simp [appendedIds, length_modifyFirst]
  | delete id =>
    refine ⟨Nat.le_refl _, Or.inl ?_⟩
    simp only [handle, postDelete, appendedIds, List.map_eq_nil_iff]
    exact List.drop_eq_nil_of_le (List.length_filter_le _ _)
  | other => simp [handle, notFound, appendedIds]

theorem assignedIds_spec (reqs : List (Nat × Request)) :
    ∀ s, (assignedIds s reqs).Nodup ∧ s.nextId ≤ (run s reqs).nextId ∧
      ∀ id ∈ assignedIds s reqs, ∃ n, s.nextId ≤ n ∧ n < (run s reqs).nextId ∧
        id = toString n := by
  induction reqs with
  | nil => intro s; simp [assignedIds, run]
  | cons r rest ih =>
    intro s
    obtain ⟨now, r⟩ := r
    obtain ⟨hle, happ⟩ := handle_appended s now r
    obtain ⟨ih1, ih2, ih3⟩ := ih (handle s now r).1
    simp only [assignedIds, run]
    rcases happ with h0 | ⟨h0, h1⟩
    · rw [h0]
      refine ⟨by simpa using ih1, le_trans hle ih2, ?_⟩
      intro id hid
      obtain ⟨n, hn1, hn2, hn3⟩ := ih3 id (by simpa using hid)
      exact ⟨n, le_trans hle hn1, hn2, hn3⟩
    · rw [h0]
      refine ⟨?_, le_trans hle ih2, ?_⟩
      · rw [List.singleton_append, List.nodup_cons]
        refine ⟨?_, ih1⟩
        intro hmem
        obtain ⟨n, hn1, -, hn3⟩ := ih3 _ hmem
        have := JS.toString_nat_inj hn3
        omega
      · intro id hid
        rw [List.singleton_append, List.mem_cons] at hid
        rcases hid with rfl | hid
        · exact ⟨s.nextId, Nat.le_refl _, by omega, rfl⟩
        · obtain ⟨n, hn1, hn2, hn3⟩ := ih3 id hid
          exact ⟨n, le_trans hle hn1, hn2, hn3⟩

theorem insertByUpdatedAt_perm (p : Post) (l : List Post) :
    (insertByUpdatedAt p l).Perm (p :: l) := by
  induction l with
  | nil => exact List.Perm.refl _
  | cons q qs ih =>
    simp only [insertByUpdatedAt]
    split
    · exact List.Perm.refl _
    · exact ((List.Perm.cons q ih).trans (List.Perm.swap p q qs))

theorem sorted_perm (l : List Post) : (sorted l).Perm l := by
  induction l with
  | nil => exact List.Perm.refl _
  | cons p ps ih =>
    exact (insertByUpdatedAt_perm p (sorted ps)).trans (List.Perm.cons p ih)

end Blog

/-! ## The claims on the Blog application -/

namespace Blog

/-- C1, as stated, fails: a submission whose title is the array `["x"]` has a truthy
title and a truthy content, yet `POST /posts` appends no post; `title.trim()` throws
after the counter was advanced. -/
theorem create_truthy_array_appends_nothing :
    JS.truthy (some (.arr [.str "x"])) = true ∧ JS.truthy (some (.str "c")) = true ∧
    postPosts Store.init ⟨some (.arr [.str "x"]), some (.str "c")⟩ 0 =
      (⟨[], 2⟩, .fault) := by
  decide

/-- C1, amended: in every reachable store, a `POST /posts` whose title and content are
non-empty texts appends exactly one post, redirects to `/posts/<id>` of that post, and a
following `GET /posts/<id>` finds that post, whose title and content are the submitted
ones trimmed. -/
theorem create_then_show_round_trip (s : Store) (t c : String) (now : Nat)
    (hs : Reachable s) (ht : t ≠ "") (hc : c ≠ "") :
    ∃ post : Post,
      postPosts s ⟨some (.str t), some (.str c)⟩ now =
        (⟨s.posts ++ [post], s.nextId + 1⟩, .redirect ("/posts/" ++ post.id)) ∧
      post.title = JS.trim t ∧ post.content = JS.trim c ∧
      find ⟨s.posts ++ [post], s.nextId + 1⟩ post.id = some post ∧
      getPost ⟨s.posts ++ [post], s.nextId + 1⟩ post.id =
        (⟨s.posts ++ [post], s.nextId + 1⟩, .render 200 (.showPost post.title post)) := by
  obtain ⟨-, h2, -, -⟩ := inv_of_reachable s hs
  have hnew : ∀ p ∈ s.posts, p.id ≠ toString s.nextId := by
    intro p hp heq
    obtain ⟨n, -, hn2, hn3⟩ := h2 p hp
    have := JS.toString_nat_inj (hn3.symm.trans heq)
    omega
  have hfind : find ⟨s.posts ++ [⟨toString s.nextId, JS.trim t, JS.trim c, now, now⟩],
      s.nextId + 1⟩ (toString s.nextId) =
      some ⟨toString s.nextId, JS.trim t, JS.trim c, now, now⟩ := by
    unfold find
    rw [List.find?_append, List.find?_eq_none.mpr (by simpa using hnew)]
    simp
  refine ⟨⟨toString s.nextId, JS.trim t, JS.trim c, now, now⟩, ?_, rfl, rfl, hfind, ?_⟩
  · simp [postPosts, JS.truthy, JS.callTrim, ht, hc]
  · simp only [getPost, hfind]

/-- Witness of C1: after a create and a delete, a post `" Hi "`/`"x\n"` is created under
the id `"2"` and shown trimmed. -/
theorem create_then_show_round_trip_witness :
    ∃ post : Post,
      postPosts ⟨[], 2⟩ ⟨some (.str " Hi "), some (.str "x\n")⟩ 7 =
        (⟨[] ++ [post], 2 + 1⟩, .redirect ("/posts/" ++ post.id)) ∧
      post.title = JS.trim " Hi " ∧ post.content = JS.trim "x\n" ∧
      find ⟨[] ++ [post], 2 + 1⟩ post.id = some post ∧
      getPost ⟨[] ++ [post], 2 + 1⟩ post.id =
        (⟨[] ++ [post], 2 + 1⟩, .render 200 (.showPost post.title post)) :=
  create_then_show_round_trip ⟨[], 2⟩ " Hi " "x\n" 7
    ⟨[(1, .create ⟨some (.str "a"), some (.str "b")⟩), (2, .delete "1")], by decide⟩
    (by decide) (by decide)

/-- C2: the code breaks the claim at whitespace-only input. The handlers test
`!title || !content` on the raw texts and trim afterwards, so a create whose title is
three spaces is accepted, answered by a redirect, and the reachable store then holds a
post with the empty title; an edit whose title and content are white space only blanks
both fields of an existing post. The search handler of Book Notes trims first and tests
afterwards, and answers 400 to a white-space-only title. -/
theorem whitespace_title_is_stored_empty :
    JS.trim "   " = "" ∧
    run Store.init [(0, .create ⟨some (.str "   "), some (.str "x")⟩)] =
      ⟨[⟨"1", "", "x", 0, 0⟩], 2⟩ ∧
    postPosts Store.init ⟨some (.str "   "), some (.str "x")⟩ 0 =
      (⟨[⟨"1", "", "x", 0, 0⟩], 2⟩, .redirect "/posts/1") ∧
    postEdit ⟨[⟨"1", "T", "c", 3, 3⟩], 2⟩ "1" ⟨some (.str " "), some (.str "\n")⟩ 9 =
      (⟨[⟨"1", "", "", 3, 9⟩], 2⟩, .redirect "/posts/1") ∧
    (BookNotes.apiSearch (some (.str "  ")) (fun _ _ => some (some [])) :
      BookNotes.Response Unit) = .json 400 (.error "Provide ?title=") := by
  refine ⟨by decide, by decide, by decide, by decide, rfl⟩

/-- C3: after any sequence of requests from the empty store the stored ids are pairwise
distinct, each is the decimal text of a number below `nextId`, the ids handed out so far
are pairwise distinct, and the id of a post created next is none of them, deleted or
not. -/
theorem ids_unique_and_never_reused (reqs : List (Nat × Request)) :
    ((run Store.init reqs).posts.map (·.id)).Nodup ∧
    (∀ p ∈ (run Store.init reqs).posts,
      ∃ n, n < (run Store.init reqs).nextId ∧ p.id = toString n) ∧
    (assignedIds Store.init reqs).Nodup ∧
    (∀ (body : Body) (now : Nat),
      ∀ id ∈ appendedIds (run Store.init reqs) (postPosts (run Store.init reqs) body now).1,
        id ∉ assignedIds Store.init reqs) := by
  obtain ⟨h1, h2, -, -⟩ := inv_run reqs _ inv_init
  obtain ⟨a1, -, a3⟩ := assignedIds_spec reqs Store.init
  refine ⟨h1, ?_, a1, ?_⟩
  · intro p hp
    obtain ⟨n, -, hn2, hn3⟩ := h2 p hp
    exact ⟨n, hn2, hn3⟩
  · intro body now id hid hmem
    obtain ⟨n, -, hn2, hn3⟩ := a3 id hmem
    have happ := (handle_appended (run Store.init reqs) now (.create body)).2
    simp only [handle] at happ
    rcases happ with h0 | ⟨h0, -⟩
    · rw [h0] at hid; simp at hid
    · rw [h0, List.mem_singleton] at hid
      have := JS.toString_nat_inj (hid.symm.trans hn3)
      omega


/-- Witness of C3: create, delete the post, create again; the second post gets `"2"`. -/
theorem ids_unique_and_never_reused_witness :
    run Store.init
        [(1, .create ⟨some (.str "a"), some (.str "b")⟩), (2, .delete "1"),
          (3, .create ⟨some (.str "c"), some (.str "d")⟩)] = ⟨[⟨"2", "c", "d", 3, 3⟩], 3⟩ ∧
    (assignedIds Store.init
        [(1, .create ⟨some (.str "a"), some (.str "b")⟩), (2, .delete "1"),
          (3, .create ⟨some (.str "c"), some (.str "d")⟩)]).Nodup :=
  ⟨by decide,
    (ids_unique_and_never_reused
      [(1, .create ⟨some (.str "a"), some (.str "b")⟩), (2, .delete "1"),
        (3, .create ⟨some (.str "c"), some (.str "d")⟩)]).2.2.1⟩

/-- C4: a `POST /posts` whose title or content is missing or the empty string answers
400 with the list view (the stored posts, sorted) and the error "Title and content are
required.", and leaves the posts and the counter unchanged; an edit of an existing id
with such a body answers 400 with the same error on the edit view and leaves the store
unchanged. -/
theorem missing_field_is_rejected (s : Store) (body : Body) (now : Nat)
    (hb : body.title = none ∨ body.title = some (.str "") ∨
      body.content = none ∨ body.content = some (.str "")) :
    postPosts s body now =
      (s, .render 400 (.index "My Blog" (sorted s.posts)
        (some "Title and content are required."))) ∧
    (sorted s.posts).Perm s.posts ∧
    (∀ (id : String) (post : Post), find s id = some post →
      postEdit s id body now =
        (s, .render 400 (.edit ("Edit: " ++ post.title) post
          (some "Title and content are required.")))) := by
  have hcond : (!JS.truthy body.title || !JS.truthy body.content) = true := by
    rcases hb with h | h | h | h <;> simp [h, JS.truthy]
  refine ⟨?_, sorted_perm _, ?_⟩
  · simp [postPosts, hcond, requiredError]
  · intro id post hf
    simp [postEdit, hf, hcond, requiredError]

/-- Witness of C4: the scenario `{title: "A", content: ""}`, on a store with one post. -/
theorem missing_field_is_rejected_witness :
    postPosts ⟨[⟨"1", "T", "c", 3, 3⟩], 2⟩ ⟨some (.str "A"), some (.str "")⟩ 9 =
      (⟨[⟨"1", "T", "c", 3, 3⟩], 2⟩,
        .render 400 (.index "My Blog" (sorted [⟨"1", "T", "c", 3, 3⟩])
          (some "Title and content are required."))) ∧
    (sorted [⟨"1", "T", "c", 3, 3⟩]).Perm [⟨"1", "T", "c", 3, 3⟩] ∧
    (∀ (id : String) (post : Post), find ⟨[⟨"1", "T", "c", 3, 3⟩], 2⟩ id = some post →
      postEdit ⟨[⟨"1", "T", "c", 3, 3⟩], 2⟩ id ⟨some (.str "A"), some (.str "")⟩ 9 =
        (⟨[⟨"1", "T", "c", 3, 3⟩], 2⟩, .render 400 (.edit ("Edit: " ++ post.title) post
          (some "Title and content are required.")))) :=
  missing_field_is_rejected ⟨[⟨"1", "T", "c", 3, 3⟩], 2⟩ ⟨some (.str "A"), some (.str "")⟩ 9
    (Or.inr (Or.inr (Or.inr rfl)))

/-- C5: for an id no stored post has, show, edit form and save edit answer 404 with the
not-found view, delete answers a redirect to `/`, and each leaves posts and counter as
they were, whatever the body. -/
theorem absent_id_never_mutates (s : Store) (id : String) (body : Body) (now : Nat)
    (h : ∀ p ∈ s.posts, p.id ≠ id) :
    getPost s id = (s, .render 404 (.notfound "Not Found" (some id))) ∧
    getEdit s id = (s, .render 404 (.notfound "Not Found" (some id))) ∧
    postEdit s id body now = (s, .render 404 (.notfound "Not Found" (some id))) ∧
    postDelete s id = (s, .redirect "/") := by
  have hf := find_eq_none s id h
  refine ⟨by simp [getPost, hf], by simp [getEdit, hf], by simp [postEdit, hf], ?_⟩
  have : s.posts.filter (fun p => p.id != id) = s.posts := by
    rw [List.filter_eq_self]
    intro p hp
    simpa using h p hp
  simp [postDelete, this]

/-- Witness of C5: the id `"7"` on a store holding only the post `"1"`. -/
theorem absent_id_never_mutates_witness :
    getPost ⟨[⟨"1", "T", "c", 3, 3⟩], 2⟩ "7" =
      (⟨[⟨"1", "T", "c", 3, 3⟩], 2⟩, .render 404 (.notfound "Not Found" (some "7"))) ∧
    getEdit ⟨[⟨"1", "T", "c", 3, 3⟩], 2⟩ "7" =
      (⟨[⟨"1", "T", "c", 3, 3⟩], 2⟩, .render 404 (.notfound "Not Found" (some "7"))) ∧
    postEdit ⟨[⟨"1", "T", "c", 3, 3⟩], 2⟩ "7" ⟨some (.str "x"), some (.arr [])⟩ 9 =
      (⟨[⟨"1", "T", "c", 3, 3⟩], 2⟩, .render 404 (.notfound "Not Found" (some "7"))) ∧
    postDelete ⟨[⟨"1", "T", "c", 3, 3⟩], 2⟩ "7" =
      (⟨[⟨"1", "T", "c", 3, 3⟩], 2⟩, .redirect "/") :=
  absent_id_never_mutates ⟨[⟨"1", "T", "c", 3, 3⟩], 2⟩ "7" ⟨some (.str "x"), some (.arr [])⟩ 9
    (by decide)

/-- C6: after `POST /posts/<id>/delete` no stored post has that id, the posts with another
id are exactly those stored before, unchanged and in the same order, the counter is
unchanged and the response is a redirect to `/`; a second delete of the same id gives
the same store and the same redirect. -/
theorem delete_removes_exactly_target (s : Store) (id : String) :
    (∀ p ∈ (postDelete s id).1.posts, p.id ≠ id) ∧
    (∀ p ∈ s.posts, p.id ≠ id → p ∈ (postDelete s id).1.posts) ∧
    (postDelete s id).1.posts.Sublist s.posts ∧
    (postDelete s id).1.posts.filter (fun p => decide (p.id ≠ id)) =
      s.posts.filter (fun p => decide (p.id ≠ id)) ∧
    (postDelete s id).1.nextId = s.nextId ∧
    (postDelete s id).2 = .redirect "/" ∧
    postDelete (postDelete s id).1 id = postDelete s id := by
  refine ⟨?_, ?_, ?_, ?_, rfl, rfl, ?_⟩
  · intro p hp
    simpa [postDelete] using (List.mem_filter.mp hp).2
  · intro p hp hne
    show p ∈ s.posts.filter (fun p => p.id != id)
    rw [List.mem_filter]
    exact ⟨hp, by simpa using hne⟩
  · exact List.filter_sublist _
  · simp only [postDelete, List.filter_filter]
    congr 1
    funext p
    by_cases h : p.id = id <;> simp [h]
  · simp [postDelete, List.filter_filter]


/-- C7, as stated, fails: with a truthy text title and the truthy array `[""]` (sent as
`content[]=`) as content,
the edit assigns the title, then `content.trim()` throws; content and `updatedAt` keep
their old values and the response is the error response, not a redirect. -/
theorem edit_truthy_array_updates_title_only :
    JS.truthy (some (.str "N")) = true ∧ JS.truthy (some (.arr [.str ""])) = true ∧
    postEdit ⟨[⟨"1", "T", "c", 3, 3⟩], 2⟩ "1" ⟨some (.str "N"), some (.arr [.str ""])⟩ 9 =
      (⟨[⟨"1", "N", "c", 3, 3⟩], 2⟩, .fault) := by
  decide

/-- C7, amended: for every store, every id of a stored post and every submission whose
title and content are non-empty texts, the edit replaces the first (in a reachable store,
the only) post with that id by the same post with title and content set to the trimmed
submitted texts and `updatedAt` set to the time of the edit; `id` and `createdAt` of that
post, every other post, the order and the counter are unchanged, and the response is a
redirect to `/posts/<id>`. -/
theorem edit_updates_only_target (s : Store) (id t c : String) (now : Nat)
    (hid : ∃ p ∈ s.posts, p.id = id) (ht : t ≠ "") (hc : c ≠ "") :
    ∃ (pre : List Post) (p : Post) (post : List Post),
      s.posts = pre ++ p :: post ∧ p.id = id ∧ (∀ q ∈ pre, q.id ≠ id) ∧
      (Reachable s → ∀ q ∈ post, q.id ≠ id) ∧
      postEdit s id ⟨some (.str t), some (.str c)⟩ now =
        (⟨pre ++ { p with title := JS.trim t, content := JS.trim c, updatedAt := now } :: post,
            s.nextId⟩,
          .redirect ("/posts/" ++ id)) := by
  have hid' : ∃ p ∈ s.posts, (fun p : Post => p.id == id) p = true := by
    obtain ⟨p, hp, hpi⟩ := hid
    exact ⟨p, hp, by simpa using hpi⟩
  obtain ⟨pre, p, post, h1, h2, h3, h4, h5⟩ := modifyFirst_split (fun p => p.id == id)
    (fun p => { p with title := JS.trim t, content := JS.trim c, updatedAt := now }) s.posts hid'
  have hpid : p.id = id := by simpa using h2
  refine ⟨pre, p, post, h1, hpid, ?_, ?_, ?_⟩
  · intro q hq
    simpa using h3 q hq
  · intro hr q hq heq
    have hnd := (inv_of_reachable s hr).1
    rw [h1] at hnd
    simp only [List.map_append, List.map_cons] at hnd
    have hnd2 := (List.nodup_append.mp hnd).2.1
    rw [List.nodup_cons] at hnd2
    exact hnd2.1 (List.mem_map.mpr ⟨q, hq, heq.trans hpid.symm⟩)
  · have hf : find s id = some p := h4
    simp [postEdit, hf, JS.truthy, JS.callTrim, ht, hc, h5, hpid]

/-- Witness of C7: the post `"1"` of a two-post store is edited at time 9. -/
theorem edit_updates_only_target_witness :
    ∃ (pre : List Post) (p : Post) (post : List Post),
      (Store.mk [⟨"1", "T", "c", 3, 3⟩, ⟨"2", "U", "d", 4, 4⟩] 3).posts = pre ++ p :: post ∧
      p.id = "1" ∧ (∀ q ∈ pre, q.id ≠ "1") ∧
      (Reachable ⟨[⟨"1", "T", "c", 3, 3⟩, ⟨"2", "U", "d", 4, 4⟩], 3⟩ →
        ∀ q ∈ post, q.id ≠ "1") ∧
      postEdit ⟨[⟨"1", "T", "c", 3, 3⟩, ⟨"2", "U", "d", 4, 4⟩], 3⟩ "1"
          ⟨some (.str " N "), some (.str "e")⟩ 9 =
        (⟨pre ++ { p with title := JS.trim " N ", content := JS.trim "e", updatedAt := 9 } ::
            post,
            (Store.mk [⟨"1", "T", "c", 3, 3⟩, ⟨"2", "U", "d", 4, 4⟩] 3).nextId⟩,
          .redirect ("/posts/" ++ "1")) :=
  edit_updates_only_target ⟨[⟨"1", "T", "c", 3, 3⟩, ⟨"2", "U", "d", 4, 4⟩], 3⟩ "1" " N " "e" 9
    ⟨⟨"1", "T", "c", 3, 3⟩, by decide, rfl⟩ (by decide) (by decide)

end Blog

/-! ## The claims on the Book Notes application -/

namespace BookNotes

theorem firstOrNull_eq_some (xs : Option (List String)) (a : String) :
    firstOrNull xs = some a ↔ xs.bind List.head? = some a ∧ a ≠ "" := by
  rcases xs with _ | _ | ⟨x, rest⟩
  · simp [firstOrNull]
  · simp [firstOrNull]
  · by_cases hx : x = ""
    · subst hx
      simp [firstOrNull]
      intro h; exact h.symm
    · simp only [firstOrNull, Option.some_bind, List.head?_cons, Option.some.injEq]
      have : (x != "") = true := by simpa using hx
      simp only [this, if_true, Option.some.injEq]
      constructor
      · rintro rfl; exact ⟨rfl, hx⟩
      · rintro ⟨h, -⟩; exact h

theorem yearOrNull_eq_some (y : Option Int) (n : Int) :
    yearOrNull y = some n ↔ y = some n ∧ n ≠ 0 := by
  rcases y with _ | m
  · simp [yearOrNull]
  · by_cases hm : m = 0
    · subst hm
      simp [yearOrNull]
      intro h; exact h.symm
    · have : (m != 0) = true := by simpa using hm
      simp only [yearOrNull, this, if_true, Option.some.injEq]
      constructor
      · rintro rfl; exact ⟨rfl, hm⟩
      · rintro ⟨h, -⟩; exact h

theorem toResult_cover (d : Doc) :
    ((toResult d).cover = none ↔ (toResult d).isbn = none) ∧
    (∀ n, (toResult d).isbn = some n → (toResult d).cover =
      some ("https://covers.openlibrary.org/b/isbn/" ++ encodeURIComponent n ++ "-M.jpg")) := by
  rcases d with ⟨title, author, year, _ | _ | ⟨x, rest⟩⟩
  · simp [toResult, firstOrNull]
  · simp [toResult, firstOrNull]
  · by_cases hx : x = ""
    · subst hx
      simp [toResult, firstOrNull]
    · have : (x != "") = true := by simpa using hx
      have e : "-" ++ ("M" ++ ".jpg") = "-M.jpg" := by decide
      simp [toResult, firstOrNull, coverUrlFromISBN, this, hx, String.append_assoc, e]

/-- C8: `sortClause(s)` is the title clause iff `s = "title"`, the rating clause iff
`s = "rating"`, and the recency clause for every other text, `"recency"` included; the
list handler passes `"recency"` for a missing or empty `sort` parameter and the received
value otherwise, so the statement it sends is the fixed `SELECT` followed by one of the
three fixed clauses, whatever the client sent. -/
theorem sortClause_closed_choice (s : String) (q : Option JS.Value) :
    (sortClause (some (.str s)) = "ORDER BY title ASC, created_at DESC" ↔ s = "title") ∧
    (sortClause (some (.str s)) = "ORDER BY rating DESC NULLS LAST, created_at DESC" ↔
      s = "rating") ∧
    (sortClause (some (.str s)) = "ORDER BY created_at DESC" ↔ (s ≠ "title" ∧ s ≠ "rating")) ∧
    sortClause (some (.str "recency")) = "ORDER BY created_at DESC" ∧
    homeSort none = some (.str "recency") ∧
    homeSort (some (.str "")) = some (.str "recency") ∧
    sortClause (homeSort (some (.str s))) = sortClause (some (.str s)) ∧
    (∃ clause, clause ∈ ["ORDER BY title ASC, created_at DESC",
        "ORDER BY rating DESC NULLS LAST, created_at DESC", "ORDER BY created_at DESC"] ∧
      homeQuery q =
        "SELECT id, title, author, isbn, rating, notes, date_read, created_at, updated_at\n         FROM books "
          ++ clause ++ ";") := by
  have htr : titleClause ≠ ratingClause := by decide
  have htc : titleClause ≠ recencyClause := by decide
  have hrc : ratingClause ≠ recencyClause := by decide
  have hcases : ∀ v : Option JS.Value, sortClause v = titleClause ∨
      sortClause v = ratingClause ∨ sortClause v = recencyClause := by
    intro v
    unfold sortClause
    split
    · split
      · exact Or.inl rfl
      · split
        · exact Or.inr (Or.inl rfl)
        · exact Or.inr (Or.inr rfl)
    · exact Or.inr (Or.inr rfl)
  refine ⟨?_, ?_, ?_, by decide, rfl, rfl, ?_, ?_⟩
  · show sortClause (some (.str s)) = titleClause ↔ _
    by_cases h1 : s = "title"
    · simp [sortClause, h1]
    · by_cases h2 : s = "rating"
      · simp [sortClause, h2, htr.symm]
      · simp [sortClause, h1, h2, htc.symm]
  · show sortClause (some (.str s)) = ratingClause ↔ _
    by_cases h1 : s = "title"
    · simp [sortClause, h1, htr]
    · by_cases h2 : s = "rating"
      · simp [sortClause, h2]
      · simp [sortClause, h1, h2, hrc.symm]
  · show sortClause (some (.str s)) = recencyClause ↔ _
    by_cases h1 : s = "title"
    · simp [sortClause, h1, htc]
    · by_cases h2 : s = "rating"
      · simp [sortClause, h2, hrc]
      · simp [sortClause, h1, h2]
  · by_cases h0 : s = ""
    · subst h0
      decide
    · have : (s != "") = true := by simpa using h0
      simp [homeSort, JS.truthy, this]
  · rcases hcases (homeSort q) with h | h | h
    · exact ⟨titleClause, by simp [titleClause], by rw [homeQuery, h]⟩
    · exact ⟨ratingClause, by simp [ratingClause], by rw [homeQuery, h]⟩
    · exact ⟨recencyClause, by simp [recencyClause], by rw [homeQuery, h]⟩

/-- C9, as stated, fails for Book Notes: an accepted book whose `INSERT` succeeds is
answered by a redirect to `/`, the list, and `/` is no path `/books/<id>`. -/
theorem book_create_redirects_to_list :
    (postBooks ⟨some (.str "Dune"), none, none, none, none, none⟩ (fun _ _ => true) :
      Response Unit) = .redirect "/" ∧
    ∀ id : String, "/" ≠ "/books/" ++ id := by
  refine ⟨rfl, ?_⟩
  intro id h
  have := congrArg String.length h
  simp [String.length_append] at this
  have h7 : "/books/".length = 7 := by decide
  have h1 : "/".length = 1 := by decide
  omega

/-- C9, amended: a Blog create whose store write completes (a post is pushed) is answered
by a redirect to `/posts/<id>` of the post just pushed; a Book create that passes
validation and whose `INSERT` succeeds is answered by a redirect to the list path `/`. -/
theorem create_redirect_targets {Row : Type} (s : Blog.Store) (body : Blog.Body) (now : Nat)
    (book : BookBody) (db : String → List Param → Bool) (params : List Param)
    (hpush : (Blog.postPosts s body now).1.posts ≠ s.posts)
    (hvalid : JS.truthy book.title = true)
    (hparams : insertParams book = some params)
    (hdb : db insertSql params = true) :
    (∃ post : Blog.Post,
      (Blog.postPosts s body now).1.posts = s.posts ++ [post] ∧
      (Blog.postPosts s body now).2 = .redirect ("/posts/" ++ post.id)) ∧
    (postBooks book db : Response Row) = .redirect "/" := by
  constructor
  · rcases Blog.postPosts_cases s body now with h0 | h0 | ⟨t, c, -, -, -, -, h0⟩
    · rw [h0] at hpush; exact absurd rfl hpush
    · rw [h0] at hpush; exact absurd rfl hpush
    · rw [h0]; exact ⟨_, rfl, rfl⟩
  · simp [postBooks, hvalid, hparams, hdb]

/-- Witness of C9: the first Blog post is redirected to `/posts/1`, the book `"Dune"` to
`/`. -/
theorem create_redirect_targets_witness :
    (∃ post : Blog.Post,
      (Blog.postPosts Blog.Store.init ⟨some (.str "a"), some (.str "b")⟩ 1).1.posts =
        Blog.Store.init.posts ++ [post] ∧
      (Blog.postPosts Blog.Store.init ⟨some (.str "a"), some (.str "b")⟩ 1).2 =
        .redirect ("/posts/" ++ post.id)) ∧
    (postBooks ⟨some (.str "Dune"), none, none, none, none, none⟩ (fun _ _ => true) :
      Response Unit) = .redirect "/" :=
  create_redirect_targets Blog.Store.init ⟨some (.str "a"), some (.str "b")⟩ 1
    ⟨some (.str "Dune"), none, none, none, none, none⟩ (fun _ _ => true)
    [.text "Dune", .null, .null, .null, .null, .null]
    (by decide) rfl rfl rfl

/-- C10: for a `title` parameter that is non-empty after trimming and a successful
upstream response with documents `docs` (a missing list counting as empty),
`GET /api/search` answers `{query, results}` with the trimmed title as `query` and
`min 5 (length docs)` results; the i-th result copies the title of the i-th document, its
author, year and isbn are the first author name, the year and the first ISBN when these
are present and truthy and `null` otherwise, its cover is `null` exactly when its isbn is,
and otherwise is the cover URL of the URL-escaped isbn with size `M`. -/
theorem search_result_mapping {Row : Type} (q : String)
    (upstream : String → Nat → Option (Option (List Doc))) (docs : Option (List Doc))
    (hq : JS.trim q ≠ "") (hu : upstream (JS.trim q) 5 = some docs) :
    ∃ results : List SearchResult,
      (apiSearch (some (.str q)) upstream : Response Row) =
        .json 200 (.search (JS.trim q) results) ∧
      results.length = min 5 (docs.getD []).length ∧
      ∀ (i : Nat) (d : Doc), i < 5 → (docs.getD [])[i]? = some d →
        ∃ r, results[i]? = some r ∧ r.title = d.title ∧
          (∀ a, r.author = some a ↔ d.author_name.bind List.head? = some a ∧ a ≠ "") ∧
          (∀ y, r.first_publish_year = some y ↔ d.first_publish_year = some y ∧ y ≠ 0) ∧
          (∀ n, r.isbn = some n ↔ d.isbn.bind List.head? = some n ∧ n ≠ "") ∧
          (r.cover = none ↔ r.isbn = none) ∧
          (∀ n, r.isbn = some n → r.cover =
            some ("https://covers.openlibrary.org/b/isbn/" ++ encodeURIComponent n ++ "-M.jpg")) := by
  have hne : q ≠ "" := by
    rintro rfl
    exact hq (by decide)
  have htruthy : JS.truthy (some (.str q)) = true := by simpa [JS.truthy] using hne
  refine ⟨((docs.getD []).take 5).map toResult, ?_, ?_, ?_⟩
  · simp [apiSearch, htruthy, JS.callTrim, hq, hu]
  · simp
  · intro i d hi hd
    refine ⟨toResult d, ?_, rfl, ?_, ?_, ?_, (toResult_cover d).1, (toResult_cover d).2⟩
    · simp [List.getElem?_map, List.getElem?_take, hi, hd]
    · intro a; exact firstOrNull_eq_some _ a
    · intro y; exact yearOrNull_eq_some _ y
    · intro n; exact firstOrNull_eq_some _ n

/-- Witness of C10: the title `" Dune "` and one document with isbn `"0441013593"` give
one result whose cover URL contains that ISBN. -/
theorem search_result_mapping_witness :
    (apiSearch (some (.str " Dune "))
        (fun _ _ => some (some [⟨some "Dune", some ["Frank Herbert"], some 1965,
          some ["0441013593"]⟩])) : Response Unit) =
      .json 200 (.search "Dune" [⟨some "Dune", some "Frank Herbert", some 1965,
        some "0441013593", some "https://covers.openlibrary.org/b/isbn/0441013593-M.jpg"⟩]) ∧
    ∃ results : List SearchResult,
      (apiSearch (some (.str " Dune "))
        (fun _ _ => some (some [⟨some "Dune", some ["Frank Herbert"], some 1965,
          some ["0441013593"]⟩])) : Response Unit) =
        .json 200 (.search (JS.trim " Dune ") results) ∧
      results.length = min 5 ((some [(⟨some "Dune", some ["Frank Herbert"], some 1965,
          some ["0441013593"]⟩ : Doc)]).getD []).length ∧
      ∀ (i : Nat) (d : Doc), i < 5 →
        ((some [(⟨some "Dune", some ["Frank Herbert"], some 1965,
          some ["0441013593"]⟩ : Doc)]).getD [])[i]? = some d →
        ∃ r, results[i]? = some r ∧ r.title = d.title ∧
          (∀ a, r.author = some a ↔ d.author_name.bind List.head? = some a ∧ a ≠ "") ∧
          (∀ y, r.first_publish_year = some y ↔ d.first_publish_year = some y ∧ y ≠ 0) ∧
          (∀ n, r.isbn = some n ↔ d.isbn.bind List.head? = some n ∧ n ≠ "") ∧
          (r.cover = none ↔ r.isbn = none) ∧
          (∀ n, r.isbn = some n → r.cover =
            some ("https://covers.openlibrary.org/b/isbn/" ++ encodeURIComponent n ++ "-M.jpg")) :=
  ⟨rfl,
    search_result_mapping " Dune " _ (some [⟨some "Dune", some ["Frank Herbert"], some 1965,
      some ["0441013593"]⟩]) (by decide) rfl⟩

end BookNotes
